import Mathlib

/-!
Verification development for the nedb-revisited storage/query core.

The JavaScript sources under scrutiny are `src/src/datastore.js`,
`src/src/executor.js`, `src/src/indexes.js`, `src/src/storage.js` (which also
carries the cursor module) and the persistence module.  Pure fragments are
embedded as Lean functions; stateful fragments are embedded as explicit
state-passing functions; code that can throw returns a state paired with an
optional error (a thrown JS exception leaves the mutated state behind, so the
state is always returned, never discarded).  Promise results are modelled by
an outcome type with a `pending` constructor, because one storage routine can
leave its promise forever unsettled.

The value model (`model.js`: getDotValue, match, modify, deepCopy,
checkObject) and the `is`/`binary-search-tree` libraries are not part of the
given sources; where a claim needs them they are modelled from the spec and
marked as such in their doc comments.
-/

/-- A JavaScript primitive value as it appears in documents and queries.
`date ms` models a Date object via its `getTime()` value; `promiseObj` models
an opaque `Promise` object (needed because `ensureIndex` passes one to
`Index.insert`). -/
inductive JSVal where
  | undefined
  | null
  | bool (b : Bool)
  | num (n : Int)
  | str (s : String)
  | date (ms : Int)
  | promiseObj
  deriving DecidableEq, Repr

/-- The value found at a document field: JavaScript `undefined` is
`scalar .undefined`; an array of primitives is `arr`. -/
inductive FieldVal where
  | scalar (v : JSVal)
  | arr (vs : List JSVal)
  deriving DecidableEq, Repr

/-- A stored document.  `oid` models the JavaScript object identity (pointer):
the tree library compares stored values with `a === b`
(`checkValueEquality`, indexes.js:8). -/
structure JSDoc where
  oid : Nat
  attrs : List (String × FieldVal)
  deriving DecidableEq, Repr

/-- Modelled from the spec: `getDotValue(doc, path)` of model.js (not among
the given sources) restricted to paths without a dot, i.e. plain field
lookup; a missing field yields `undefined` (spec section 4.1). -/
def getAttr (d : JSDoc) (f : String) : FieldVal :=
  match d.attrs.find? (fun p => decide (p.1 = f)) with
  | some p => p.2
  | none => FieldVal.scalar .undefined

/-- JavaScript truthiness of a primitive value. -/
def jsTruthy : JSVal → Bool
  | .undefined => false
  | .null => false
  | .bool b => b
  | .num n => !decide (n = 0)
  | .str s => !decide (s = "")
  | .date _ => true
  | .promiseObj => true

/-- Modelled from the spec: `defined(v)` of the external `is` package used by
datastore.js, which holds exactly when `v !== undefined`. -/
def jsDefined : JSVal → Bool
  | .undefined => false
  | _ => true

/-- Modelled from the spec: `date(v)` of the external `is` package used by
datastore.js: a Date-object test. -/
def jsIsDate : JSVal → Bool
  | .date _ => true
  | _ => false

/-- Errors thrown by the embedded code. -/
inductive JSError where
  | typeError
  | uniqueViolated
  | missingFieldName
  deriving DecidableEq, Repr

/-- The observable fate of a JavaScript promise: settled with a value,
settled with an error, or never settled. -/
inductive PromiseOutcome (α : Type) where
  | resolved (a : α)
  | rejected (e : JSError)
  | pending
  deriving DecidableEq, Repr

/-! ## C1 — DataStore construction (datastore.js:271-313, persistence ctor) -/

/-- The recognised constructor options of DataStore (datastore.js:252-266);
`none` means the option was not supplied, so the class-field default stays
(`filename = null`, `inMemoryOnly = false`, datastore.js:239-240).
`Object.assign(this, options)` overwrites the defaults with supplied keys. -/
structure DSOptions where
  filename : Option JSVal := none
  inMemoryOnly : Option Bool := none
  deriving DecidableEq, Repr

/-- The constructor-relevant slice of a freshly constructed DataStore plus
the filename its Persistence ends up with. -/
structure DataStoreInit where
  filename : Option String
  inMemoryOnly : Bool
  persistenceFilename : JSVal
  executorReady : Bool
  deriving DecidableEq, Repr

/-- The DataStore constructor (datastore.js:271-313).  After
`Object.assign`, line 280-283 nulls the filename unless it is a non-empty
string; line 284 sets `this.inMemoryOnly = this.filename !== null`
(overwriting any supplied `inMemoryOnly`); the Persistence constructor then
reads `this.filename = db.fileName` (mis-cased, so always `undefined`);
line 297-299 marks the executor ready when `inMemoryOnly` is set. -/
def dataStoreNew (opts : DSOptions) : DataStoreInit :=
  let assignedFilename : JSVal := (opts.filename).getD .null
  let filename : Option String :=
    match assignedFilename with
    | .str s => if s.length = 0 then none else some s
    | _ => none
  let inMemoryOnly : Bool := !decide (filename = none)
  { filename := filename
    inMemoryOnly := inMemoryOnly
    persistenceFilename := .undefined
    executorReady := inMemoryOnly }

/-- The string-argument constructor form `new DataStore(filename)`
(datastore.js:273-274). -/
def dataStoreNewStr (filename : String) : DataStoreInit :=
  dataStoreNew { filename := some (.str filename) }

/-! ## C2 — Storage.ensureDatafileIntegrity (storage.js:125-156) -/

/-- The two filesystem entries `ensureDatafileIntegrity` can touch: the data
file and its `~` companion; `none` means the file does not exist. -/
structure FsState where
  file : Option String
  temp : Option String
  deriving DecidableEq, Repr

/-- `Storage.ensureDatafileIntegrity(filename)` (storage.js:125-156), on the
branch structure of the source, with `writeFile` assumed to succeed: if the
data file exists the promise resolves (line 131-134); otherwise the `~` file
is probed, and only when it does NOT exist is an empty data file created and
the promise resolved (line 138-152); when the `~` file does exist no branch
runs, so the promise is never settled and the file system is untouched. -/
def ensureDatafileIntegrity (fs : FsState) : PromiseOutcome Unit × FsState :=
  match fs.file with
  | some _ => (.resolved (), fs)
  | none =>
    match fs.temp with
    | none => (.resolved (), { fs with file := some "" })
    | some _ => (.pending, fs)

/-! ## C3 — TTL expiry classification (datastore.js:468-507) -/

/-- The value of the JavaScript expression
`doc[i] && date(doc[i]) && Date.now() > doc[i].getTime() + ttl * 1000`
(datastore.js:484): `&&` yields the left operand when it is falsy, otherwise
the right-hand side; `date(v)` is false for non-Date objects, making the
whole chain evaluate to `false` (a defined value) in that case. -/
def ttlExprVal (v : JSVal) (now : Int) (seconds : Int) : JSVal :=
  if jsTruthy v = false then v
  else
    match v with
    | .date ms => .bool (decide (now > ms + seconds * 1000))
    | _ => .bool false

/-- A document counts as expired in `removeAllExpiredDocs`
(datastore.js:479-495) when, for some TTL field, `defined(<expression>)`
holds — the source wraps the whole expiry test in `defined(...)`. -/
def docExpiredByCode (ttl : List (String × Int)) (d : JSDoc) (now : Int) : Bool :=
  ttl.any fun p =>
    match getAttr d p.1 with
    | .scalar v => jsDefined (ttlExprVal v now p.2)
    | .arr _ => jsDefined (.bool false)

/-- Modelled from the spec (section 4.7): a candidate is expired iff for some
TTL field f with expireAfterSeconds = s, doc[f] is a timestamp and
now > doc[f] + s*1000. -/
def docExpiredSpec (ttl : List (String × Int)) (d : JSDoc) (now : Int) : Bool :=
  ttl.any fun p =>
    match getAttr d p.1 with
    | .scalar (.date ms) => decide (now > ms + p.2 * 1000)
    | _ => false

/-- `removeAllExpiredDocs(docs, dontExpireStaleDocs)` (datastore.js:468-507):
when `dontExpireStaleDocs` is set all docs pass through; otherwise docs are
partitioned into `validDocs` and the `_id`s of the expired ones. -/
def removeAllExpiredDocs (ttl : List (String × Int)) (docs : List JSDoc)
    (now : Int) (dontExpireStaleDocs : Bool) : List JSDoc × List FieldVal :=
  if dontExpireStaleDocs then (docs, [])
  else
    ((docs.filter fun d => !docExpiredByCode ttl d now),
     (docs.filter fun d => docExpiredByCode ttl d now).map fun d => getAttr d "_id")

/-! ## Index model (indexes.js) over the black-box ordered multimap -/

/-- Modelled from the spec: the balanced-tree library (out of scope for the
sources, spec section 1 treats it as a black-box ordered multimap).  Its
content is the finite multiset of (key, stored document) pairs, kept here as
a list in insertion order; `unique` mirrors the tree option
(indexes.js:43-47). -/
structure BST where
  unique : Bool
  entries : List (JSVal × JSDoc)
  deriving DecidableEq, Repr

/-- Modelled from the spec: tree insertion; with `unique` set, inserting an
already-present key fails with UniqueViolated before any mutation. -/
def treeInsert (t : BST) (k : JSVal) (d : JSDoc) : Except JSError BST :=
  if t.unique && t.entries.any (fun e => decide (e.1 = k)) then .error .uniqueViolated
  else .ok { t with entries := t.entries ++ [(k, d)] }

/-- Modelled from the spec: tree deletion removes, under the given key, the
stored values that are pointer-equal (`checkValueEquality`, indexes.js:8-10)
to the given document; it never fails. -/
def treeDelete (t : BST) (k : JSVal) (d : JSDoc) : BST :=
  { t with entries := t.entries.filter fun e => !(decide (e.1 = k) && decide (e.2.oid = d.oid)) }

/-- An Index (indexes.js:35-50): declaration fields plus the tree.
`Object.assign(this, options)` keeps an `expireAfterSeconds` option as a
plain property, which nothing in indexes.js reads. -/
structure Index where
  fieldName : String
  unique : Bool := false
  sparse : Bool := false
  expireAfterSeconds : Option Int := none
  tree : BST
  deriving DecidableEq, Repr

/-- A fresh Index for the given options (indexes.js:40-50): empty tree with
the declaration's `unique`. -/
def mkIndex (fieldName : String) (unique sparse : Bool) (expire : Option Int) : Index :=
  { fieldName := fieldName, unique := unique, sparse := sparse,
    expireAfterSeconds := expire, tree := { unique := unique, entries := [] } }

/-- `projectForUnique` (indexes.js:15-33): the type-tagged projection used to
de-duplicate array keys; values other than null/string/boolean/number fall
through to the value itself. -/
def projectForUnique (v : JSVal) : JSVal :=
  match v with
  | .null => .str "$null"
  | .str s => .str ("$string" ++ s)
  | .bool b => .str ("$boolean" ++ (if b then "true" else "false"))
  | .num n => .str ("$number" ++ toString n)
  | v => v

/-- `uniq(key, projectForUnique)` of lodash (external, modelled from the
spec's key-extraction rule): keep the first occurrence of each projected
value. -/
def uniqByProj (seen : List JSVal) : List JSVal → List JSVal
  | [] => []
  | v :: vs =>
    if seen.any (fun s => decide (s = projectForUnique v)) then uniqByProj seen vs
    else v :: uniqByProj (projectForUnique v :: seen) vs

/-- Sequentially insert one document under each key of a list
(the loop of indexes.js:92-101); on the first failure, return the mutated
tree together with the error and the keys already inserted (`0..failingI-1`). -/
def treeInsertKeys (t : BST) (d : JSDoc) :
    List JSVal → BST × Option (JSError × List JSVal)
  | [] => (t, none)
  | k :: ks =>
    match treeInsert t k d with
    | .ok t' =>
      match treeInsertKeys t' d ks with
      | (t'', none) => (t'', none)
      | (t'', some (e, done)) => (t'', some (e, k :: done))
    | .error e => (t, some (e, []))

/-- `Index.insert(doc)` for a single document (indexes.js:70-112): skip when
sparse and the key is undefined; plain insert for a scalar key; for an array
key insert under each de-duplicated element and, if one violates the unique
constraint, delete the elements inserted so far (indexes.js:103-110) before
reporting the error. -/
def idxInsert (ix : Index) (d : JSDoc) : Index × Option JSError :=
  match getAttr d ix.fieldName with
  | .scalar k =>
    if k = .undefined ∧ ix.sparse = true then (ix, none)
    else
      match treeInsert ix.tree k d with
      | .ok t => ({ ix with tree := t }, none)
      | .error e => (ix, some e)
  | .arr ks =>
    match treeInsertKeys ix.tree d (uniqByProj [] ks) with
    | (t, none) => ({ ix with tree := t }, none)
    | (t, some (e, done)) =>
      ({ ix with tree := done.foldl (fun t k => treeDelete t k d) t }, some e)

/-- `Index.remove(doc)` for a single document (indexes.js:150-171):
symmetric to insertion, deleting under the same key set; never fails. -/
def idxRemove (ix : Index) (d : JSDoc) : Index :=
  match getAttr d ix.fieldName with
  | .scalar k =>
    if k = .undefined ∧ ix.sparse = true then ix
    else { ix with tree := treeDelete ix.tree k d }
  | .arr ks =>
    { ix with tree := (uniqByProj [] ks).foldl (fun t k => treeDelete t k d) ix.tree }

/-- The loop of `Index.insertMultipleDocs` (indexes.js:125-133): insert each
document in turn; on the first failure, return the state left by the failing
insert (which has rolled itself back) with the error and the documents
already inserted. -/
def idxInsertDocsSeq (ix : Index) :
    List JSDoc → Index × Option (JSError × List JSDoc)
  | [] => (ix, none)
  | d :: ds =>
    match idxInsert ix d with
    | (ix', none) =>
      match idxInsertDocsSeq ix' ds with
      | (ix'', none) => (ix'', none)
      | (ix'', some (e, done)) => (ix'', some (e, d :: done))
    | (ix', some e) => (ix', some (e, []))

/-- `Index.insertMultipleDocs(docs)` (indexes.js:121-142): on failure at
position i, remove positions 0..i-1 and report the error. -/
def insertMultipleDocs (ix : Index) (docs : List JSDoc) : Index × Option JSError :=
  match idxInsertDocsSeq ix docs with
  | (ix', none) => (ix', none)
  | (ix', some (e, done)) => (done.foldl idxRemove ix', some e)

/-! ## Cross-index operations (datastore.js:401-434, 79-99) -/

/-- `DataStore.addToIndexes(doc)` (datastore.js:401-424) over the store's
index map in `Object.keys` order: insert the document into each index; on
the first failure, remove it again from every earlier index and report the
error (the failing index has already rolled itself back). -/
def addToIndexes (d : JSDoc) :
    List (String × Index) → List (String × Index) × Option JSError
  | [] => ([], none)
  | (n, ix) :: rest =>
    match idxInsert ix d with
    | (ix', none) =>
      match addToIndexes d rest with
      | (rest', none) => ((n, ix') :: rest', none)
      | (rest', some e) => ((n, idxRemove ix' d) :: rest', some e)
    | (ix', some e) => ((n, ix') :: rest, some e)

/-- `DataStore.removeFromIndexes(doc)` (datastore.js:430-434): remove the
document from every index. -/
def removeFromIndexes (ixs : List (String × Index)) (d : JSDoc) :
    List (String × Index) :=
  ixs.map fun p => (p.1, idxRemove p.2 d)

/-- `insertMultipleDocsInCache` (datastore.js:79-99): add each prepared
document to all indexes; on failure at position i, remove documents 0..i-1
from all indexes and report the error. -/
def insertMultipleDocsInCache (ixs : List (String × Index)) :
    List JSDoc → List (String × Index) × Option JSError
  | [] => (ixs, none)
  | d :: ds =>
    match addToIndexes d ixs with
    | (ixs', none) =>
      match insertMultipleDocsInCache ixs' ds with
      | (ixs'', none) => (ixs'', none)
      | (ixs'', some e) => (removeFromIndexes ixs'' d, some e)
    | (ixs', some e) => (ixs', some e)

/-- No entry of the index mentions the given object identity. -/
def oidFresh (ix : Index) (o : Nat) : Prop :=
  ∀ e ∈ ix.tree.entries, e.2.oid ≠ o

instance (ix : Index) (o : Nat) : Decidable (oidFresh ix o) := by
  unfold oidFresh; infer_instance

/-- Concrete store for exercising the batch-insert rollback: a unique `_id`
index and a unique index on field k, both empty. -/
def w5ixs : List (String × Index) :=
  [("_id", mkIndex "_id" true false none), ("k", mkIndex "k" true false none)]

/-- Concrete batch whose second document violates the unique index on k. -/
def w5docs : List JSDoc :=
  [{ oid := 1, attrs := [("_id", .scalar (.str "a")), ("k", .scalar (.num 1))] },
   { oid := 2, attrs := [("_id", .scalar (.str "b")), ("k", .scalar (.num 1))] }]

/-! ## Log records, store state, persistence (persistence module, datastore.js) -/

/-- One line of the append-only log, at record granularity (the text
serialization layer of model.js is out of scope; every record serializes to
one non-empty line). -/
inductive LogRecord where
  | doc (d : JSDoc)
  | deleted (id : FieldVal)
  | indexCreated (fieldName : String) (unique : Bool) (sparse : Bool)
      (expireAfterSeconds : Option Int)
  | indexRemoved (fieldName : String)
  deriving DecidableEq, Repr

/-- The store state the embedded operations act on: the index map in
`Object.keys` order, the TTL registry, the Persistence's `inMemoryOnly` flag
and the on-disk log (as a record list). -/
structure DSState where
  inMemoryOnly : Bool
  indexes : List (String × Index)
  ttlIndexes : List (String × Int)
  log : List LogRecord
  deriving DecidableEq, Repr

/-- `persistNewState(newDocs)` (persistence module, lines 218-243): resolve
without writing when in-memory-only or when nothing is to be persisted,
otherwise append one record per document to the log. -/
def persistNewState (st : DSState) (recs : List LogRecord) : DSState :=
  if st.inMemoryOnly then st
  else if recs.isEmpty then st
  else { st with log := st.log ++ recs }

/-- `getAllData` (datastore.js:327-329): the contents of the `_id` index
(`getAll`, with entry order standing in for the tree's traversal order). -/
def getAllData (st : DSState) : List JSDoc :=
  match st.indexes.find? (fun p => decide (p.1 = "_id")) with
  | some p => p.2.tree.entries.map (fun e => e.2)
  | none => []

/-- Look an index up by field name. -/
def lookupIdx (st : DSState) (f : String) : Option Index :=
  (st.indexes.find? fun p => decide (p.1 = f)).map fun p => p.2

/-- `removeIndex(fieldName)` (datastore.js:391-395): `delete
this.indexes[fieldName]` — with no special case for the `_id` index — then
`persistNewState([{$$indexRemoved: fieldName}])`. -/
def removeIndex (st : DSState) (fieldName : String) : DSState :=
  persistNewState
    { st with indexes := st.indexes.filter fun p => !decide (p.1 = fieldName) }
    [.indexRemoved fieldName]

/-! ## ensureIndex (datastore.js:351-384) -/

/-- The options accepted by `ensureIndex`; a missing or empty `fieldName` is
falsy in the source's check. -/
structure IndexOptions where
  fieldName : Option String := none
  unique : Bool := false
  sparse : Bool := false
  expireAfterSeconds : Option Int := none
  deriving DecidableEq, Repr

/-- What a call to `ensureIndex` leaves behind: the state after the
synchronous part and the microtask it spawns, the fate of the returned
promise, and the error (if any) that escaped into an unhandled rejection. -/
structure EnsureIndexResult where
  state : DSState
  outcome : PromiseOutcome Unit
  unhandledRejection : Option JSError
  deriving DecidableEq, Repr

/-- `ensureIndex(options)` (datastore.js:351-384).  Execution order of the
source: reject on a falsy `fieldName`; no-op when the index exists; register
the new Index and the TTL metadata; then
`this.indexes[f].insert(this.getAllData())` runs synchronously — and
`getAllData()` is a Promise, so the promise OBJECT (here the document with
identity `promiseOid` and no fields) is inserted under key `undefined`; the
surrounding try/catch (lines 368-380) can only see an error of that
synchronous insert, in which case it unregisters the index and rejects.
Otherwise `persistNewState([{$$indexCreated: options}])` is returned (it
carries the full options, including `expireAfterSeconds`), and afterwards
the microtask `getAllData().then(data => insert(data))` bulk-inserts the
live documents; an error there is re-thrown inside `.catch` and becomes an
unhandled rejection — it neither unregisters the index nor rejects the
returned promise. -/
def ensureIndex (st : DSState) (opts : IndexOptions) (promiseOid : Nat) :
    EnsureIndexResult :=
  match opts.fieldName with
  | none => { state := st, outcome := .rejected .missingFieldName, unhandledRejection := none }
  | some f =>
    if f = "" then
      { state := st, outcome := .rejected .missingFieldName, unhandledRejection := none }
    else if st.indexes.any fun p => decide (p.1 = f) then
      { state := st, outcome := .resolved (), unhandledRejection := none }
    else
      let newIx := mkIndex f opts.unique opts.sparse opts.expireAfterSeconds
      let ttl' :=
        match opts.expireAfterSeconds with
        | some s => st.ttlIndexes ++ [(f, s)]
        | none => st.ttlIndexes
      let data := getAllData st
      match idxInsert newIx { oid := promiseOid, attrs := [] } with
      | (_, some e) =>
        { state := { st with ttlIndexes := ttl' }
          outcome := .rejected e
          unhandledRejection := none }
      | (ix1, none) =>
        let bulk := insertMultipleDocs ix1 data
        { state :=
            persistNewState
              { st with indexes := st.indexes ++ [(f, bulk.1)], ttlIndexes := ttl' }
              [.indexCreated f opts.unique opts.sparse opts.expireAfterSeconds]
          outcome := .resolved ()
          unhandledRejection := bulk.2 }

/-! ## Compaction (persistence module, persistCachedDatabase, lines 137-179) -/

/-- `persistCachedDatabase()`: when not in-memory-only, build the compacted
log — one record per live document (in `_id`-index order), then one
`$$indexCreated` record per non-`_id` index carrying ONLY `fieldName`,
`unique` and `sparse` (the source literal at lines 158-165 has no
`expireAfterSeconds` key, so the record's declaration slot for it is
`none`) — write it in one `crashSafeWriteFile`, and emit `compaction.done`.
The result is the written line list (`none` when nothing is written) and
the emitted events. -/
def persistCachedDatabase (inMemoryOnly : Bool) (live : List JSDoc)
    (indexes : List (String × Index)) : Option (List LogRecord) × List String :=
  if inMemoryOnly then (none, [])
  else
    let docPart := live.foldl (fun acc d => acc ++ [LogRecord.doc d]) []
    let toPersist := indexes.foldl
      (fun acc p =>
        if p.1 = "_id" then acc
        else acc ++ [LogRecord.indexCreated p.2.fieldName p.2.unique p.2.sparse none])
      docPart
    (some toPersist, ["compaction.done"])

/-! ## Executor (executor.js) -/

/-- The executor (executor.js:3-28): a side buffer, a readiness flag and the
run queue of a concurrency-1 FIFO p-queue (tasks named by numbers).  The
returned Bool records whether `push` handed back a promise (`queue.add`) or
`undefined` (the buffering branch returns nothing). -/
structure Executor where
  buffer : List Nat
  ready : Bool
  queue : List Nat
  deriving DecidableEq, Repr

/-- `Executor.push(task, forceQueueing)` (executor.js:10-15). -/
def executorPush (ex : Executor) (task : Nat) (forceQueueing : Bool) :
    Executor × Bool :=
  if ex.ready || forceQueueing then ({ ex with queue := ex.queue ++ [task] }, true)
  else ({ ex with buffer := ex.buffer ++ [task] }, false)

/-- `Executor.processBuffer()` (executor.js:17-23): flip to ready and move
the buffered tasks onto the run queue in order. -/
def processBuffer (ex : Executor) : Executor :=
  { buffer := [], ready := true, queue := ex.queue ++ ex.buffer }

/-- How every user operation reaches the executor: `insert`, `update` and
`remove` call `this.executor.push(task, true)` (datastore.js:599, 661, 665)
and `Cursor.exec` does the same (cursor module, line 344) — `forceQueueing`
is always true. -/
def submitUserOp (ex : Executor) (task : Nat) : Executor × Bool :=
  executorPush ex task true

/-! ## Query/update pipeline (datastore.js, cursor module) -/

/-- Modelled from the spec: `match(doc, query)` of model.js (section 4.2)
restricted to the bare-value equality form — a mapping of field to primitive
value, each tested for equality. -/
def matchQ (d : JSDoc) (q : List (String × JSVal)) : Bool :=
  q.all fun fv => decide (getAttr d fv.1 = .scalar fv.2)

/-- The update-query shapes needed by the claims: a plain replacement
document (no operator keys, accepted by `checkObject`) or a `$set` mutator
mapping (rejected by `checkObject`, applied by `modify`). -/
inductive UpdQ where
  | replace (fields : List (String × FieldVal))
  | set (fields : List (String × FieldVal))
  deriving DecidableEq, Repr

/-- Set one field of an attribute list, in place if present. -/
def setAttr (attrs : List (String × FieldVal)) (f : String) (v : FieldVal) :
    List (String × FieldVal) :=
  if attrs.any fun p => decide (p.1 = f) then
    attrs.map fun p => if p.1 = f then (f, v) else p
  else attrs ++ [(f, v)]

/-- Modelled from the spec: `modify(doc, updateQuery)` of model.js
(section 4.2) for the two shapes above; it builds a NEW document (fresh
object identity `newOid`), wholly replacing on the operator-free form while
preserving `_id`, or applying `$set` field by field. -/
def modifyDoc (d : JSDoc) (uq : UpdQ) (newOid : Nat) : JSDoc :=
  match uq with
  | .replace fs =>
    { oid := newOid,
      attrs :=
        match getAttr d "_id" with
        | .scalar .undefined => fs
        | idv => setAttr fs "_id" idv }
  | .set fs =>
    { oid := newOid, attrs := fs.foldl (fun a p => setAttr a p.1 p.2) d.attrs }

/-- `Index.getMatching(value)` for a scalar value (indexes.js:259-278):
exact-key search. -/
def idxGetMatching (ix : Index) (v : JSVal) : List JSDoc :=
  (ix.tree.entries.filter fun e => decide (e.1 = v)).map fun e => e.2

/-- The primitive-value test of `getCandidatesFromIndexes` (datastore.js:
512-522): string, number, boolean, date or null. -/
def isPrimitiveQVal : JSVal → Bool
  | .str _ => true
  | .num _ => true
  | .bool _ => true
  | .date _ => true
  | .null => true
  | _ => false

/-- `getCandidatesFromIndexes(query, indexNames)` (datastore.js:509-568) for
bare-equality queries: the first query field with a primitive value and a
matching index is answered from that index; otherwise fall through to a full
scan of the `_id` index (the `$in` and comparison clauses, lines 529-559,
cannot fire on a bare-equality query). -/
def getCandidatesFromIndexes (st : DSState) (q : List (String × JSVal)) :
    List JSDoc :=
  match q.filter fun p =>
      isPrimitiveQVal p.2 && st.indexes.any fun ip => decide (ip.1 = p.1) with
  | u :: _ =>
    match lookupIdx st u.1 with
    | some ix => idxGetMatching ix u.2
    | none => []
  | [] => getAllData st

/-- `getCandidates(query, dontExpireStaleDocs)` (datastore.js:570-584):
candidates from the indexes, then the TTL post-filter of
`removeAllExpiredDocs`.  (The removals it schedules for expired documents
are a separate mutation path; the claims evaluated through this function
use stores without TTL indexes or pass `dontExpireStaleDocs = true`.) -/
def getCandidates (st : DSState) (q : List (String × JSVal))
    (dontExpireStaleDocs : Bool) (now : Int) : List JSDoc :=
  (removeAllExpiredDocs st.ttlIndexes (getCandidatesFromIndexes st q) now
    dontExpireStaleDocs).1

/-- The internal `insert` (datastore.js:119-131) for one document:
`prepareDocumentForInsertion` deep-copies (fresh identity `freshOid`) and
assigns `_id = createNewId()` when absent (timestamps are off), then
`addToIndexes` with cross-index rollback, then `persistNewState` with one
record; an index failure rejects without touching the log. -/
def insertModel (st : DSState) (attrs : List (String × FieldVal))
    (freshOid : Nat) (newId : String) : DSState × PromiseOutcome JSDoc :=
  let withId :=
    if attrs.any fun p => decide (p.1 = "_id") then attrs
    else attrs ++ [("_id", FieldVal.scalar (.str newId))]
  let prepared : JSDoc := { oid := freshOid, attrs := withId }
  match addToIndexes prepared st.indexes with
  | (ixs', some e) => ({ st with indexes := ixs' }, .rejected e)
  | (ixs', none) =>
    (persistNewState { st with indexes := ixs' } [.doc prepared], .resolved prepared)

/-- The options mapping of `remove` (datastore.js:15-25). -/
structure RemoveOptions where
  multi : Option Bool := none
  deriving DecidableEq, Repr

/-- The internal `remove` (datastore.js:15-42): the `options` parameter has
a `= {}` default, so omitting it is fine; `multi` defaults to false;
candidates are fetched with `dontExpireStaleDocs = true`; each match
(respecting `multi`) is removed from all indexes and recorded as a
tombstone; the tombstones are appended and the promise resolves with the
removed count. -/
def removeModel (st : DSState) (q : List (String × JSVal))
    (options : Option RemoveOptions) (now : Int) : DSState × PromiseOutcome Nat :=
  let opts := options.getD {}
  let multi := opts.multi.getD false
  let candidates := getCandidates st q true now
  let step := candidates.foldl
    (fun (acc : Nat × List LogRecord × List (String × Index)) d =>
      if matchQ d q && (multi || decide (acc.1 = 0)) then
        (acc.1 + 1, acc.2.1 ++ [.deleted (getAttr d "_id")],
         removeFromIndexes acc.2.2 d)
      else acc)
    (0, [], st.indexes)
  (persistNewState { st with indexes := step.2.2 } step.2.1, .resolved step.1)

/-- The options mapping of `update` (datastore.js:133-135). -/
structure UpdateOptions where
  multi : Option Bool := none
  upsert : Option Bool := none
  returnUpdatedDocs : Option Bool := none
  deriving DecidableEq, Repr

/-- The plain reinsertion loop used when rolling an update back
(indexes.js:228-230): insert each document, assuming success. -/
def idxReinsertAll (ix : Index) (ds : List JSDoc) : Index :=
  ds.foldl (fun a d => (idxInsert a d).1) ix

/-- `Index.updateMultipleDocs(pairs)` (indexes.js:205-234): remove all old
documents, insert the new ones one by one; on a failure remove the new
documents inserted so far and reinsert all old ones, then report the
error. -/
def idxUpdateMulti (ix : Index) (pairs : List (JSDoc × JSDoc)) :
    Index × Option JSError :=
  let ixR := pairs.foldl (fun a p => idxRemove a p.1) ix
  match idxInsertDocsSeq ixR (pairs.map fun p => p.2) with
  | (ix', none) => (ix', none)
  | (ix', some (e, done)) =>
    (idxReinsertAll (done.foldl idxRemove ix') (pairs.map fun p => p.1), some e)

/-- `DataStore.updateIndexes(modifications)` (datastore.js:443-466) over the
index map: update each index with the pair list; on the first failure,
revert the update (`revertUpdate` = update with the pairs swapped,
indexes.js:241-252) on every earlier index and report the error. -/
def updateIndexesModel (pairs : List (JSDoc × JSDoc)) :
    List (String × Index) → List (String × Index) × Option JSError
  | [] => ([], none)
  | (n, ix) :: rest =>
    match idxUpdateMulti ix pairs with
    | (ix', none) =>
      match updateIndexesModel pairs rest with
      | (rest', none) => ((n, ix') :: rest', none)
      | (rest', some e) =>
        ((n, (idxUpdateMulti ix' (pairs.map fun p => (p.2, p.1))).1) :: rest', some e)
    | (ix', some e) => ((n, ix') :: rest, some e)

/-- The internal `update(query, updateQuery, options)` (datastore.js:
133-236).  Phase 1 (lines 138-177): when upserting, run an internal cursor
with limit 1; when it finds nothing, synthesize the document — the
update query itself when operator-free, otherwise `modify(deepCopy(query,
true), updateQuery)` — and insert it.  The wrapper promise is then resolved,
but resolving it does NOT stop the chain: phase 2 (lines 178-235) runs
unconditionally afterwards — fetch candidates, modify every match
(respecting `multi`), `updateIndexes`, and append one record per new
document; the promise resolves with the replaced count (the
`returnUpdatedDocs` result shape is not modelled — the count is returned
either way).  `supply` numbers the object identities allocated along the
way; `newId` is the `createNewId` result. -/
def updateModel (st : DSState) (q : List (String × JSVal)) (uq : UpdQ)
    (multi upsert returnUpdatedDocs : Bool) (now : Int) (supply : Nat)
    (newId : String) : DSState × PromiseOutcome Nat :=
  let phase1 : DSState × Option JSError :=
    if upsert = false then (st, none)
    else
      let found := ((getCandidates st q false now).filter fun d => matchQ d q).take 1
      if found.length = 1 then (st, none)
      else
        let toBeInserted : List (String × FieldVal) :=
          match uq with
          | .replace fs => fs
          | .set _ =>
            (modifyDoc { oid := supply, attrs := q.map fun p => (p.1, FieldVal.scalar p.2) }
              uq (supply + 1)).attrs
        match insertModel st toBeInserted (supply + 2) newId with
        | (st1, .rejected e) => (st1, some e)
        | (st1, _) => (st1, none)
  match phase1 with
  | (st1, some e) => (st1, .rejected e)
  | (st1, none) =>
    let candidates := getCandidates st1 q false now
    let mods := candidates.foldl
      (fun (acc : Nat × List (JSDoc × JSDoc) × Nat) c =>
        if matchQ c q && (multi || decide (acc.1 = 0)) then
          (acc.1 + 1, acc.2.1 ++ [(c, modifyDoc c uq acc.2.2)], acc.2.2 + 1)
        else acc)
      (0, [], supply + 3)
    match updateIndexesModel mods.2.1 st1.indexes with
    | (ixs', some e) => ({ st1 with indexes := ixs' }, .rejected e)
    | (ixs', none) =>
      (persistNewState { st1 with indexes := ixs' }
        (mods.2.1.map fun p => LogRecord.doc p.2), .resolved mods.1)

/-- The public `DataStore.update` (datastore.js:660-662): the queued task
evaluates `options.multi` (line 134) with no default for `options`, so an
omitted options argument makes the task throw a TypeError, which the
executor's queue turns into a rejected promise; with options supplied,
`multi`/`upsert`/`returnUpdatedDocs` default to false. -/
def dataStoreUpdate (st : DSState) (q : List (String × JSVal)) (uq : UpdQ)
    (options : Option UpdateOptions) (now : Int) (supply : Nat)
    (newId : String) : DSState × PromiseOutcome Nat :=
  match options with
  | none => (st, .rejected .typeError)
  | some o =>
    updateModel st q uq (o.multi.getD false) (o.upsert.getD false)
      (o.returnUpdatedDocs.getD false) now supply newId

/-! ## Concrete stores for the C4, C6 and C7 theorems -/

/-- An empty persistent store: just the unique `_id` index. -/
def st4 : DSState :=
  { inMemoryOnly := false, indexes := [("_id", mkIndex "_id" true false none)],
    ttlIndexes := [], log := [] }

/-- A live document with field x = 5. -/
def doc6 : JSDoc :=
  { oid := 1, attrs := [("_id", .scalar (.str "a")), ("x", .scalar (.num 5))] }

/-- A persistent store holding `doc6`. -/
def st6 : DSState :=
  { inMemoryOnly := false,
    indexes := [("_id",
      { fieldName := "_id", unique := true, sparse := false, expireAfterSeconds := none,
        tree := { unique := true, entries := [(.str "a", doc6)] } })],
    ttlIndexes := [], log := [] }

/-- A second live document with the same x value as `doc6`. -/
def doc6b : JSDoc :=
  { oid := 2, attrs := [("_id", .scalar (.str "b")), ("x", .scalar (.num 5))] }

/-- A persistent store holding two documents that collide on x. -/
def st6b : DSState :=
  { inMemoryOnly := false,
    indexes := [("_id",
      { fieldName := "_id", unique := true, sparse := false, expireAfterSeconds := none,
        tree := { unique := true, entries := [(.str "a", doc6), (.str "b", doc6b)] } })],
    ttlIndexes := [], log := [] }

/-- A registered TTL index on field exp (60 seconds). -/
def w7ttlIdx : Index := mkIndex "exp" false false (some 60)

/-! # Theorems -/

/-- C1: the claim says a non-empty filename (without `inMemoryOnly`) yields a
persistent store whose Persistence targets that filename.  The code does the
opposite: `new DataStore('data.db')` produces `inMemoryOnly = true`, its
Persistence sees `undefined` as filename (the mis-cased `db.fileName`), and a
store built with no filename at all has `inMemoryOnly = false` — the
in-memory characterisation is inverted, contradicting the constructor's own
option documentation (datastore.js:256). -/
theorem c1_constructor_inverts_inMemoryOnly :
    (dataStoreNewStr "data.db").inMemoryOnly = true ∧
    (dataStoreNewStr "data.db").persistenceFilename = .undefined ∧
    (dataStoreNew {}).inMemoryOnly = false ∧
    (dataStoreNew { filename := some (.str ""), inMemoryOnly := some true }).inMemoryOnly
      = false := by
  decide

/-- C2: the claim says that when the data file is absent but the `~` temp
file exists, `ensureDatafileIntegrity` renames the temp file to the path.
In the source that branch is missing: the returned promise never settles and
the file system is left untouched (temp file still present, data file still
absent), so recovery from a crash mid-rename does not happen. -/
theorem c2_integrity_hangs_on_temp_file :
    (ensureDatafileIntegrity { file := none, temp := some "olddata" }).1
        = PromiseOutcome.pending ∧
    (ensureDatafileIntegrity { file := none, temp := some "olddata" }).2
        = { file := none, temp := some "olddata" } ∧
    (ensureDatafileIntegrity { file := some "d", temp := none }).1
        = PromiseOutcome.resolved () ∧
    (ensureDatafileIntegrity { file := none, temp := none }).2.file = some "" := by
  decide

/-- C3: the claim says a candidate is expired iff its TTL field is a
timestamp older than the threshold.  Because the source wraps the whole test
in `defined(...)`, any document whose TTL field is defined is classified
expired: a document carrying a NON-expired timestamp (`now = 2000`, field at
1000, threshold 100 s) is expired by the code but valid by the spec, and
ends up on the expired side of the `removeAllExpiredDocs` partition. -/
theorem c3_ttl_expires_fresh_documents :
    docExpiredByCode [("exp", 100)]
        { oid := 1, attrs := [("_id", .scalar (.str "a")), ("exp", .scalar (.date 1000))] }
        2000 = true ∧
    docExpiredSpec [("exp", 100)]
        { oid := 1, attrs := [("_id", .scalar (.str "a")), ("exp", .scalar (.date 1000))] }
        2000 = false ∧
    (removeAllExpiredDocs [("exp", 100)]
        [{ oid := 1, attrs := [("_id", .scalar (.str "a")), ("exp", .scalar (.date 1000))] }]
        2000 false).1 = [] ∧
    (removeAllExpiredDocs [("exp", 100)]
        [{ oid := 1, attrs := [("_id", .scalar (.str "a")), ("exp", .scalar (.date 1000))] }]
        2000 false).2 = [.scalar (.str "a")] := by
  decide

/-! ## Rollback lemmas for batch insertion (C5) -/

/-- Deleting under a fold of keys filters the entry list by "under none of
these keys with this document's identity". -/
theorem foldl_treeDelete (d : JSDoc) (K : List JSVal) (t : BST) :
    K.foldl (fun t k => treeDelete t k d) t =
      { unique := t.unique,
        entries := t.entries.filter fun e =>
          !((K.any fun k => decide (e.1 = k)) && decide (e.2.oid = d.oid)) } := by
  induction K generalizing t with
  | nil => simp
  | cons k K ih =>
    rw [List.foldl_cons, ih]
    simp only [treeDelete]
    congr 1
    rw [List.filter_filter]
    apply List.filter_congr
    intro e _
    cases h1 : decide (e.1 = k) <;> cases h2 : decide (e.2.oid = d.oid) <;>
      simp [h1, h2]

/-- A filter that only drops entries carrying a given object identity leaves
a list free of that identity unchanged. -/
theorem filter_oid_fresh (o : Nat) (A : JSVal × JSDoc → Bool)
    (l : List (JSVal × JSDoc)) (h : ∀ e ∈ l, e.2.oid ≠ o) :
    (l.filter fun e => !(A e && decide (e.2.oid = o))) = l := by
  induction l with
  | nil => rfl
  | cons e l ih =>
    have he : decide (e.2.oid = o) = false := by
      simpa using h e (List.mem_cons_self e l)
    rw [List.filter_cons]
    simp only [he, Bool.and_false, Bool.not_false, if_pos]
    rw [ih fun a ha => h a (List.mem_cons_of_mem e ha)]

/-- The entries a document was just inserted under are all dropped by the
rollback filter over the same key list. -/
theorem filter_oid_added (d : JSDoc) (K : List JSVal) :
    ((K.map fun k => (k, d)).filter fun e =>
      !((K.any fun k => decide (e.1 = k)) && decide (e.2.oid = d.oid))) = [] := by
  apply List.filter_eq_nil_iff.mpr
  intro a ha
  rcases List.mem_map.mp ha with ⟨k, hk, rfl⟩
  have hany : (K.any fun k' => decide ((k, d).1 = k')) = true :=
    List.any_eq_true.mpr ⟨k, hk, by simp⟩
  simp [hany]

/-- Successful tree insertion appends the new entry. -/
theorem treeInsert_ok {t : BST} {k : JSVal} {d : JSDoc} {t' : BST}
    (h : treeInsert t k d = .ok t') :
    t' = { unique := t.unique, entries := t.entries ++ [(k, d)] } := by
  unfold treeInsert at h
  split at h
  · cases h
  · cases h; rfl

/-- A successful run of the per-key insertion loop appends one entry per
key, in order. -/
theorem treeInsertKeys_ok {d : JSDoc} {ks : List JSVal} {t t' : BST}
    (h : treeInsertKeys t d ks = (t', none)) :
    t' = { unique := t.unique, entries := t.entries ++ ks.map fun k => (k, d) } := by
  induction ks generalizing t with
  | nil => cases h; simp
  | cons k ks ih =>
    unfold treeInsertKeys at h
    split at h
    next t1 h1 =>
      split at h
      next t2 h2 =>
        cases h
        rw [ih h2, treeInsert_ok h1]
        simp
      next t2 e2 done2 h2 => cases h
    next e1 h1 => cases h

/-- A failed run of the per-key insertion loop has appended exactly the keys
it reports as already done. -/
theorem treeInsertKeys_err {d : JSDoc} {ks : List JSVal} {t t' : BST}
    {e : JSError} {done : List JSVal}
    (h : treeInsertKeys t d ks = (t', some (e, done))) :
    t' = { unique := t.unique, entries := t.entries ++ done.map fun k => (k, d) } := by
  induction ks generalizing t done with
  | nil => cases h
  | cons k ks ih =>
    unfold treeInsertKeys at h
    split at h
    next t1 h1 =>
      split at h
      next t2 h2 => cases h
      next t2 e2 done2 h2 =>
        cases h
        rw [ih h2, treeInsert_ok h1]
        simp
    next e1 h1 =>
      cases h
      simp

/-- A failing single-document index insertion leaves the index exactly as it
was (the per-key rollback of indexes.js:103-110 restores the tree), provided
the document's identity was not already present. -/
theorem idxInsert_err_id {ix : Index} {d : JSDoc} {ix' : Index} {e : JSError}
    (hf : oidFresh ix d.oid) (h : idxInsert ix d = (ix', some e)) : ix' = ix := by
  unfold idxInsert at h
  split at h
  next k heq =>
    split at h
    · injection h with h1 h2; cases h2
    · split at h
      next t1 h1 => injection h with h1' h2'; cases h2'
      next e1 h1 => injection h with h1' h2'; exact h1'.symm
  next ks heq =>
    split at h
    next t1 h1 => injection h with h1' h2'; cases h2'
    next t1 e1 done h1 =>
      injection h with h1' h2'
      subst h1'
      rw [foldl_treeDelete, treeInsertKeys_err h1]
      simp only [List.filter_append]
      rw [filter_oid_fresh d.oid _ ix.tree.entries hf, filter_oid_added, List.append_nil]

/-- Removing a document right after successfully inserting it restores the
index exactly, provided the document's identity was not already present
(insertion and removal walk the same key set of the same document). -/
theorem idxInsert_ok_roundtrip {ix : Index} {d : JSDoc} {ix' : Index}
    (hf : oidFresh ix d.oid) (h : idxInsert ix d = (ix', none)) :
    idxRemove ix' d = ix := by
  unfold idxInsert at h
  split at h
  next k heq =>
    split at h
    next hc =>
      injection h with h1 h2
      subst h1
      simp only [idxRemove, heq]
      rw [if_pos hc]
    next hc =>
      split at h
      next t1 h1 =>
        injection h with h1' h2'
        subst h1'
        simp only [idxRemove, heq]
        rw [if_neg hc, treeInsert_ok h1]
        simp only [treeDelete, List.filter_append]
        rw [filter_oid_fresh d.oid _ ix.tree.entries hf]
        simp
      next e1 h1 => injection h with h1' h2'; cases h2'
  next ks heq =>
    split at h
    next t1 h1 =>
      injection h with h1' h2'
      subst h1'
      simp only [idxRemove, heq]
      rw [foldl_treeDelete, treeInsertKeys_ok h1]
      simp only [List.filter_append]
      rw [filter_oid_fresh d.oid _ ix.tree.entries hf, filter_oid_added, List.append_nil]
    next t1 e1 done h1 => injection h with h1' h2'; cases h2'

/-- Index insertion only ever adds entries carrying the inserted document's
identity. -/
theorem idxInsert_oid_sub {ix : Index} {d : JSDoc} {ix' : Index}
    {r : Option JSError} (h : idxInsert ix d = (ix', r)) :
    ∀ e ∈ ix'.tree.entries, e ∈ ix.tree.entries ∨ e.2.oid = d.oid := by
  unfold idxInsert at h
  split at h
  next k heq =>
    split at h
    · injection h with h1 h2
      subst h1
      exact fun e he => Or.inl he
    · split at h
      next t1 h1 =>
        injection h with h1' h2'
        subst h1'
        rw [treeInsert_ok h1]
        intro e he
        rcases List.mem_append.mp he with he | he
        · exact Or.inl he
        · rcases List.mem_singleton.mp he with rfl
          exact Or.inr rfl
      next e1 h1 =>
        injection h with h1' h2'
        subst h1'
        exact fun e he => Or.inl he
  next ks heq =>
    split at h
    next t1 h1 =>
      injection h with h1' h2'
      subst h1'
      rw [treeInsertKeys_ok h1]
      intro e he
      rcases List.mem_append.mp he with he | he
      · exact Or.inl he
      · rcases List.mem_map.mp he with ⟨k, _, rfl⟩
        exact Or.inr rfl
    next t1 e1 done h1 =>
      injection h with h1' h2'
      subst h1'
      rw [foldl_treeDelete, treeInsertKeys_err h1]
      intro e he
      have he' := List.mem_of_mem_filter he
      rcases List.mem_append.mp he' with he' | he'
      · exact Or.inl he'
      · rcases List.mem_map.mp he' with ⟨k, _, rfl⟩
        exact Or.inr rfl

/-- Index removal only ever drops entries. -/
theorem idxRemove_sub {ix : Index} {d : JSDoc} :
    ∀ e ∈ (idxRemove ix d).tree.entries, e ∈ ix.tree.entries := by
  unfold idxRemove
  split
  next k heq =>
    split
    · exact fun e he => he
    · exact fun e he => List.mem_of_mem_filter he
  next ks heq =>
    rw [foldl_treeDelete]
    exact fun e he => List.mem_of_mem_filter he

/-- Adding one document to all indexes preserves the absence of every other
object identity, whether it succeeds or fails. -/
theorem addToIndexes_fresh {d : JSDoc} {o : Nat} (hne : o ≠ d.oid)
    {ixs ixs' : List (String × Index)} {r : Option JSError}
    (h : addToIndexes d ixs = (ixs', r)) (hf : ∀ p ∈ ixs, oidFresh p.2 o) :
    ∀ p ∈ ixs', oidFresh p.2 o := by
  induction ixs generalizing ixs' r with
  | nil =>
    cases h
    exact hf
  | cons q rest ih =>
    obtain ⟨n, ix⟩ := q
    unfold addToIndexes at h
    have hfhd : oidFresh ix o := hf _ (List.mem_cons_self _ _)
    have hftl : ∀ p ∈ rest, oidFresh p.2 o := fun p hp => hf p (List.mem_cons_of_mem _ hp)
    split at h
    next ix1 hins =>
      have hhd : oidFresh ix1 o := by
        intro e he
        rcases idxInsert_oid_sub hins e he with he' | he'
        · exact hfhd e he'
        · rw [he']; exact fun hc => hne hc.symm
      split at h
      next rest1 hrest =>
        cases h
        intro p hp
        rcases List.mem_cons.mp hp with rfl | hp
        · exact hhd
        · exact ih hrest hftl p hp
      next rest1 e1 hrest =>
        cases h
        intro p hp
        rcases List.mem_cons.mp hp with rfl | hp
        · exact fun e he => hhd e (idxRemove_sub e he)
        · exact ih hrest hftl p hp
    next ix1 e1 hins =>
      cases h
      intro p hp
      rcases List.mem_cons.mp hp with rfl | hp
      · intro e he
        rcases idxInsert_oid_sub hins e he with he' | he'
        · exact hfhd e he'
        · rw [he']; exact fun hc => hne hc.symm
      · exact hftl p hp

/-- Removing a document from all indexes right after adding it to all of
them restores every index, provided its identity was fresh everywhere. -/
theorem addToIndexes_ok_roundtrip {d : JSDoc} {ixs ixs' : List (String × Index)}
    (hf : ∀ p ∈ ixs, oidFresh p.2 d.oid)
    (h : addToIndexes d ixs = (ixs', none)) :
    removeFromIndexes ixs' d = ixs := by
  induction ixs generalizing ixs' with
  | nil => cases h; rfl
  | cons q rest ih =>
    obtain ⟨n, ix⟩ := q
    unfold addToIndexes at h
    split at h
    next ix1 hins =>
      split at h
      next rest1 hrest =>
        cases h
        unfold removeFromIndexes
        simp only [List.map_cons]
        rw [idxInsert_ok_roundtrip (hf _ (List.mem_cons_self _ _)) hins]
        have := ih (fun p hp => hf p (List.mem_cons_of_mem _ hp)) hrest
        unfold removeFromIndexes at this
        rw [this]
      next rest1 e1 hrest => injection h with h1 h2; cases h2
    next ix1 e1 hins => injection h with h1 h2; cases h2

/-- A failing add-to-all-indexes leaves every index exactly as it was
(the cross-index rollback of datastore.js:417-423), provided the document's
identity was fresh everywhere. -/
theorem addToIndexes_err_id {d : JSDoc} {ixs ixs' : List (String × Index)}
    {e : JSError} (hf : ∀ p ∈ ixs, oidFresh p.2 d.oid)
    (h : addToIndexes d ixs = (ixs', some e)) : ixs' = ixs := by
  induction ixs generalizing ixs' with
  | nil => cases h
  | cons q rest ih =>
    obtain ⟨n, ix⟩ := q
    unfold addToIndexes at h
    split at h
    next ix1 hins =>
      split at h
      next rest1 hrest => injection h with h1 h2; cases h2
      next rest1 e1 hrest =>
        cases h
        rw [idxInsert_ok_roundtrip (hf _ (List.mem_cons_self _ _)) hins,
          ih (fun p hp => hf p (List.mem_cons_of_mem _ hp)) hrest]
    next ix1 e1 hins =>
      cases h
      rw [idxInsert_err_id (hf _ (List.mem_cons_self _ _)) hins]

/-- C5: when a batch insert fails at some position (for example through a
unique-constraint violation on any index), every index of the store — the
one that failed and all the others — is left equal to its state before the
batch began, and the error is propagated (the returned outcome carries it).
The hypotheses state that the batch consists of freshly prepared documents:
pairwise distinct object identities, none already present in an index
(guaranteed in the source because `prepareDocumentForInsertion` deep-copies
every input, datastore.js:49-72). -/
theorem c5_batch_insert_rollback (ixs ixs' : List (String × Index))
    (docs : List JSDoc) (e : JSError)
    (hnodup : (docs.map JSDoc.oid).Nodup)
    (hfresh : ∀ d ∈ docs, ∀ p ∈ ixs, oidFresh p.2 d.oid)
    (hfail : insertMultipleDocsInCache ixs docs = (ixs', some e)) :
    ixs' = ixs := by
  induction docs generalizing ixs ixs' with
  | nil => cases hfail
  | cons d ds ih =>
    unfold insertMultipleDocsInCache at hfail
    rw [List.map_cons] at hnodup
    rcases List.nodup_cons.mp hnodup with ⟨hdni, hndtl⟩
    have hfhd : ∀ p ∈ ixs, oidFresh p.2 d.oid := hfresh d (List.mem_cons_self _ _)
    split at hfail
    next ixs1 hadd =>
      split at hfail
      next ixs2 hrec => injection hfail with h1 h2; cases h2
      next ixs2 e2 hrec =>
        cases hfail
        have hfresh1 : ∀ d2 ∈ ds, ∀ p ∈ ixs1, oidFresh p.2 d2.oid := by
          intro d2 hd2
          refine addToIndexes_fresh ?_ hadd (hfresh d2 (List.mem_cons_of_mem _ hd2))
          intro hco
          exact hdni (by rw [← hco]; exact List.mem_map_of_mem JSDoc.oid hd2)
        rw [ih _ _ hndtl hfresh1 hrec]
        exact addToIndexes_ok_roundtrip hfhd hadd
    next ixs1 e1 hadd =>
      cases hfail
      exact addToIndexes_err_id hfhd hadd

/-- Witness for C5: a two-index store (unique `_id` index, unique index on
field k) and a two-document batch whose second document collides on k.  The
batch fails with UniqueViolated, the hypotheses of the rollback theorem hold
by evaluation, and the theorem returns the store to its pre-call state. -/
theorem c5_batch_insert_rollback_witness :
    (w5docs.map JSDoc.oid).Nodup ∧
    (∀ d ∈ w5docs, ∀ p ∈ w5ixs, oidFresh p.2 d.oid) ∧
    (insertMultipleDocsInCache w5ixs w5docs).2 = some .uniqueViolated ∧
    (insertMultipleDocsInCache w5ixs w5docs).1 = w5ixs :=
  ⟨by decide, by decide, by decide,
   c5_batch_insert_rollback w5ixs (insertMultipleDocsInCache w5ixs w5docs).1 w5docs
     .uniqueViolated (by decide) (by decide) (by decide)⟩

/-- Folding document records onto an accumulator appends one record per
live document, in order. -/
theorem foldl_doc_records (live : List JSDoc) (acc : List LogRecord) :
    live.foldl (fun acc d => acc ++ [LogRecord.doc d]) acc
      = acc ++ live.map LogRecord.doc := by
  induction live generalizing acc with
  | nil => simp
  | cons d ds ih => simp [ih]

/-- Folding index-declaration records onto an accumulator appends one record
per non-`_id` index, in order. -/
theorem foldl_index_records (ixs : List (String × Index)) (acc : List LogRecord) :
    ixs.foldl
      (fun acc p =>
        if p.1 = "_id" then acc
        else acc ++ [LogRecord.indexCreated p.2.fieldName p.2.unique p.2.sparse none])
      acc
      = acc ++ (ixs.filter fun p => !decide (p.1 = "_id")).map
          (fun p => LogRecord.indexCreated p.2.fieldName p.2.unique p.2.sparse none) := by
  induction ixs generalizing acc with
  | nil => simp
  | cons p ps ih =>
    rw [List.foldl_cons, List.filter_cons]
    by_cases h : p.1 = "_id"
    · simp [h, ih]
    · simp only [h, if_neg h, decide_False, Bool.not_false, if_pos, List.map_cons,
        decide_eq_true_eq]
      rw [ih]
      simp [h]

/-- C4 (evidence): on an empty store,
update({name:"x"}, {$set:{v:1}}, {upsert:true}) inserts the synthesized
document and then still runs the candidate-fetch/modify phase: the log
receives TWO records — the inserted document (identity 12) and a re-modified
copy of it (fresh identity 13) — and the operation resolves with replaced
count 1, where the claim requires exactly one record, no re-modification and
no replacement count.  (The live set still has exactly one document.) -/
theorem c4_upsert_runs_modify_phase :
    (updateModel st4 [("name", .str "x")] (.set [("v", .scalar (.num 1))])
        false true false 0 10 "id1").2 = .resolved 1 ∧
    (updateModel st4 [("name", .str "x")] (.set [("v", .scalar (.num 1))])
        false true false 0 10 "id1").1.log =
      [.doc { oid := 12, attrs := [("name", .scalar (.str "x")),
                ("v", .scalar (.num 1)), ("_id", .scalar (.str "id1"))] },
       .doc { oid := 13, attrs := [("name", .scalar (.str "x")),
                ("v", .scalar (.num 1)), ("_id", .scalar (.str "id1"))] }] ∧
    (getAllData (updateModel st4 [("name", .str "x")] (.set [("v", .scalar (.num 1))])
        false true false 0 10 "id1").1).length = 1 := by
  decide

/-- C6 (evidence): ensureIndex({fieldName:"x"}) on a one-document store
leaves the new index holding the live document AND a junk entry — the
unresolved `getAllData()` Promise object, inserted under key `undefined` by
the synchronous `insert(this.getAllData())` call — so the index does not
contain exactly the live documents.  And when the deferred bulk load
violates a unique constraint (store st6b, both documents have x = 5), the
index stays registered with only the junk entry, the returned promise still
resolves and the `$$indexCreated` record is still appended: the error only
escapes as an unhandled rejection, instead of unregistering the index and
failing the call. -/
theorem c6_ensureIndex_inserts_promise_object :
    getAllData st6 = [doc6] ∧
    lookupIdx (ensureIndex st6 { fieldName := some "x" } 99).state "x" =
      some { fieldName := "x", unique := false, sparse := false,
             expireAfterSeconds := none,
             tree := { unique := false,
                       entries := [(.undefined, { oid := 99, attrs := [] }),
                                   (.num 5, doc6)] } } ∧
    (ensureIndex st6 { fieldName := some "x" } 99).outcome = .resolved () ∧
    (ensureIndex st6 { fieldName := some "x" } 99).state.log =
      [.indexCreated "x" false false none] ∧
    (ensureIndex st6b { fieldName := some "x", unique := true } 99).unhandledRejection
      = some .uniqueViolated ∧
    lookupIdx (ensureIndex st6b { fieldName := some "x", unique := true } 99).state "x" =
      some { fieldName := "x", unique := true, sparse := false,
             expireAfterSeconds := none,
             tree := { unique := true,
                       entries := [(.undefined, { oid := 99, attrs := [] })] } } ∧
    (ensureIndex st6b { fieldName := some "x", unique := true } 99).outcome
      = .resolved () := by
  decide

/-- C7 (counterexample): the claim says every compaction-written
`$$indexCreated` record carries the index's `expireAfterSeconds`
declaration field.  Compacting a store whose registered index on exp
declares `expireAfterSeconds = 60` writes a record whose declaration slot
for it is empty (`none`): the source serializes only `fieldName`, `unique`
and `sparse`. -/
theorem c7_compaction_drops_expireAfterSeconds :
    w7ttlIdx.expireAfterSeconds = some 60 ∧
    (persistCachedDatabase false [doc6]
        [("_id", mkIndex "_id" true false none), ("exp", w7ttlIdx)]).1 =
      some [.doc doc6, .indexCreated "exp" false false none] := by
  decide

/-- C7 (amended): a compaction on a persistent store writes, in one
crash-safe write, exactly one record per live document followed by exactly
one `$$indexCreated` record per registered non-`_id` index carrying that
index's `fieldName`, `unique` and `sparse` fields (but not
`expireAfterSeconds`), and emits the compaction.done event; the written
line count is |live| + |non-`_id` indexes|. -/
theorem c7_compaction_record_layout (live : List JSDoc)
    (ixs : List (String × Index)) :
    (persistCachedDatabase false live ixs).1 =
      some (live.map LogRecord.doc ++
        (ixs.filter fun p => !decide (p.1 = "_id")).map
          (fun p => LogRecord.indexCreated p.2.fieldName p.2.unique p.2.sparse none)) ∧
    (persistCachedDatabase false live ixs).2 = ["compaction.done"] ∧
    ((persistCachedDatabase false live ixs).1.map List.length) =
      some (live.length + (ixs.filter fun p => !decide (p.1 = "_id")).length) := by
  unfold persistCachedDatabase
  rw [if_neg (by simp)]
  simp only [foldl_index_records, foldl_doc_records]
  simp

/-- C8 (counterexample): the claim says the `_id` index cannot be removed.
On the one-document store st6, removeIndex("_id") unregisters the `_id`
index (the store's index map becomes empty) and appends an `$$indexRemoved`
record for it. -/
theorem c8_id_index_is_removable :
    lookupIdx (removeIndex st6 "_id") "_id" = none ∧
    (removeIndex st6 "_id").indexes = [] ∧
    (removeIndex st6 "_id").log = [.indexRemoved "_id"] := by
  decide

/-- C8 (amended): removeIndex(F) unregisters index F for EVERY field name F,
including "_id" — the source has no guard — leaves the other indexes and the
TTL registry alone, and appends one `$$indexRemoved` record (when the
Persistence is in persistent mode; in-memory stores skip the write). -/
theorem c8_removeIndex_unregisters_any_field (st : DSState) (f : String) :
    lookupIdx (removeIndex st f) f = none ∧
    (removeIndex st f).indexes = st.indexes.filter (fun p => !decide (p.1 = f)) ∧
    (removeIndex st f).log =
      (if st.inMemoryOnly then st.log else st.log ++ [.indexRemoved f]) ∧
    (removeIndex st f).ttlIndexes = st.ttlIndexes := by
  have hpersist :
      removeIndex st f =
        { st with
          indexes := st.indexes.filter fun p => !decide (p.1 = f),
          log := if st.inMemoryOnly then st.log else st.log ++ [.indexRemoved f] } := by
    unfold removeIndex persistNewState
    by_cases h : st.inMemoryOnly <;> simp [h]
  rw [hpersist]
  refine ⟨?_, rfl, rfl, rfl⟩
  unfold lookupIdx
  rw [List.find?_eq_none.mpr]
  · rfl
  · intro x hx
    have := List.of_mem_filter hx
    simp at this
    simp [this]

/-- Submitting user operations through the executor appends them to the run
queue in submission order, regardless of readiness (their `forceQueueing` is
always true). -/
theorem submitUserOp_foldl (tasks : List Nat) (ex : Executor) :
    tasks.foldl (fun e t => (submitUserOp e t).1) ex
      = { ex with queue := ex.queue ++ tasks } := by
  induction tasks generalizing ex with
  | nil => simp
  | cons t ts ih =>
    rw [List.foldl_cons]
    have hstep : (submitUserOp ex t).1 = { ex with queue := ex.queue ++ [t] } := by
      simp [submitUserOp, executorPush]
    rw [hstep, ih]
    simp

/-- C9 (counterexample): the claim says an operation submitted while the
executor is not ready goes to the side buffer, not the run queue.  A user
operation (task 7) submitted to a fresh unready executor lands directly on
the run queue and the side buffer stays empty, because `insert`, `update`,
`remove` and `Cursor.exec` all push with `forceQueueing = true`. -/
theorem c9_user_op_bypasses_buffer :
    (submitUserOp { buffer := [], ready := false, queue := [] } 7).1.buffer = [] ∧
    (submitUserOp { buffer := [], ready := false, queue := [] } 7).1.queue = [7] := by
  decide

/-- C9 (amended): user operations submitted before the executor is ready are
NOT buffered: they are appended directly to the concurrency-1 run queue in
submission order (leaving the buffer and readiness flag untouched), because
every user-facing operation pushes with `forceQueueing = true`; the side
buffer is only drained — onto the back of the queue, in order — when
`processBuffer` flips the executor to ready at the end of load. -/
theorem c9_user_ops_enqueue_directly (ex : Executor) (tasks : List Nat) :
    (tasks.foldl (fun e t => (submitUserOp e t).1) ex).queue = ex.queue ++ tasks ∧
    (tasks.foldl (fun e t => (submitUserOp e t).1) ex).buffer = ex.buffer ∧
    (tasks.foldl (fun e t => (submitUserOp e t).1) ex).ready = ex.ready ∧
    (processBuffer ex).queue = ex.queue ++ ex.buffer ∧
    (processBuffer ex).buffer = [] := by
  rw [submitUserOp_foldl]
  exact ⟨rfl, rfl, rfl, rfl, rfl⟩

/-- C10: the public update with the options argument omitted rejects with a
TypeError — the task dereferences `options.multi` and `options` has no
default — while remove with options omitted behaves exactly as with an empty
options object (its `options = {}` parameter default) and resolves with the
removed count. -/
theorem c10_update_requires_options (st : DSState) (q : List (String × JSVal))
    (uq : UpdQ) (now : Int) (supply : Nat) (newId : String) :
    dataStoreUpdate st q uq none now supply newId = (st, .rejected .typeError) ∧
    removeModel st q none now = removeModel st q (some {}) now ∧
    (∃ n, (removeModel st q none now).2 = .resolved n) := by
  exact ⟨rfl, rfl, ⟨_, rfl⟩⟩
